import Mathlib

/-!
Verification of `datajud_locar_pipeline_v2.py`.

This file shallowly embeds the retrieval-and-classification core of the
DataJud Locar pipeline: the movement classifier (deadline extraction,
last-decision summary, execution-phase flag), per-hit date filtering,
the per-tribunal pagination loop of `buscar_processos`, and the
aggregation/deduplication performed in `main`.  The transport layer is
abstracted as a function from page index to an optional list of hits
(`none` models an HTTP failure surviving retries).

All definitions are translated from the Python source; theorems state the
specified properties over them.
-/

namespace DatajudLocar

/-! ## Python string primitives -/

/-- Model of Python `str.lower()` as used on movement descriptions. -/
def pyLower (s : String) : String := s.toLower

/-- Model of Python `str.upper()` as used on tribunal codes. -/
def pyUpper (s : String) : String := s.toUpper

/-- Model of Python `str.strip()` (trim surrounding whitespace). -/
def pyStrip (s : String) : String := s.trim

/-- Model of Python `needle in haystack` substring containment:
an occurrence of `needle` exists iff `splitOn` produces more than one part
(the empty needle is always contained). -/
def pyIn (needle haystack : String) : Bool :=
  needle == "" || (haystack.splitOn needle).length != 1

/-! ## Dates

`datetime.date` values are modelled as (year, month, day) triples of
naturals; comparison of valid dates is lexicographic, realised through the
numeric key `y*10000 + m*100 + d`. -/

structure Date where
  year : Nat
  month : Nat
  day : Nat
deriving DecidableEq

/-- Numeric key realising lexicographic comparison for in-range dates. -/
def Date.key (d : Date) : Nat := d.year * 10000 + d.month * 100 + d.day

/-- Model of `date.__lt__` (strictly earlier). -/
def dateLt (a b : Date) : Bool := decide (a.key < b.key)

/-- Gregorian leap-year rule, as implemented by `datetime`. -/
def isLeapYear (y : Nat) : Bool :=
  y % 4 == 0 && (y % 100 != 0 || y % 400 == 0)

/-- Number of days in a month of a given year. -/
def daysInMonth (y m : Nat) : Nat :=
  if m == 2 then (if isLeapYear y then 29 else 28)
  else if m == 4 || m == 6 || m == 9 || m == 11 then 30
  else 31

/-- Numeric value of a decimal digit character. -/
def digitVal (c : Char) : Nat := c.toNat - 48

/-- Model of `datetime.date.fromisoformat`: accepts exactly the shape
`YYYY-MM-DD` with a valid calendar date (year at least 1), raising
(`none`) otherwise. -/
def parseIso (s : String) : Option Date :=
  match s.toList with
  | [y1, y2, y3, y4, s1, m1, m2, s2, d1, d2] =>
    if y1.isDigit && y2.isDigit && y3.isDigit && y4.isDigit &&
       s1 == '-' && m1.isDigit && m2.isDigit && s2 == '-' &&
       d1.isDigit && d2.isDigit then
      let y := digitVal y1 * 1000 + digitVal y2 * 100 + digitVal y3 * 10 + digitVal y4
      let m := digitVal m1 * 10 + digitVal m2
      let d := digitVal d1 * 10 + digitVal d2
      if 1 ≤ y ∧ 1 ≤ m ∧ m ≤ 12 ∧ 1 ≤ d ∧ d ≤ daysInMonth y m then
        some ⟨y, m, d⟩
      else none
    else none
  | _ => none

/-- Embeds `parse_date` (source lines 141-146): parse the first ten
characters as an ISO date, `None` on any failure. -/
def parse_date (s : String) : Option Date := parseIso (s.take 10)

/-- The day before a given date (month/year rollover), used to model
`date - timedelta(days=n)` by iteration. -/
def Date.pred : Date → Date
  | ⟨y, m, d⟩ =>
    if 2 ≤ d then ⟨y, m, d - 1⟩
    else if 2 ≤ m then ⟨y, m - 1, daysInMonth y (m - 1)⟩
    else ⟨y - 1, 12, 31⟩

/-- The day after a given date (month/year rollover). -/
def Date.succ : Date → Date
  | ⟨y, m, d⟩ =>
    if d < daysInMonth y m then ⟨y, m, d + 1⟩
    else if m < 12 then ⟨y, m + 1, 1⟩
    else ⟨y + 1, 1, 1⟩

/-- Model of `today - datetime.timedelta(days=n)` for an integer `n`. -/
def dateSubDays (t : Date) (n : Int) : Date :=
  if 0 ≤ n then Date.pred^[n.toNat] t else Date.succ^[(-n).toNat] t

/-! ## Movements and keyword vocabularies -/

/-- One entry of a `movimentos` log.  The Python code reads the fields with
`m.get("descricao", "")` and `m.get("dataHora", "")`, so an absent field is
identified with the empty string. -/
structure Movement where
  dataHora : String
  descricao : String
deriving DecidableEq

/-- `KEYWORDS_PRAZO` (source lines 63-76). -/
def KEYWORDS_PRAZO : List String :=
  ["prazo", "intimação", "manifestação", "apresentar defesa", "apresentar",
   "contestação", "contrarrações", "embargos", "notificação", "resposta",
   "recurso", "juntada de petição"]

/-- `KEYWORDS_DECISAO` (source lines 78-89). -/
def KEYWORDS_DECISAO : List String :=
  ["sentença", "acórdão", "decisão", "despacho", "homologação", "julgado",
   "julgamento", "proferida", "deferida", "indeferida"]

/-- `KEYWORDS_EXECUCAO` (source lines 91-101). -/
def KEYWORDS_EXECUCAO : List String :=
  ["execução", "cumprimento", "penhora", "bloqueio", "exequente", "exequido",
   "expedição de alvará", "leilão", "arrematação"]

/-- `any(keyword in desc for keyword in kws)` where
`desc = descricao.lower()`, the matching test shared by the three
classification passes. -/
def matchesKeywords (kws : List String) (descricao : String) : Bool :=
  kws.any (fun k => pyIn k (pyLower descricao))

/-- A movement matching the deadline vocabulary. -/
def isPrazo (m : Movement) : Bool := matchesKeywords KEYWORDS_PRAZO m.descricao

/-- A movement matching the decision vocabulary. -/
def isDecisao (m : Movement) : Bool := matchesKeywords KEYWORDS_DECISAO m.descricao

/-- A movement matching the execution vocabulary. -/
def isExecucao (m : Movement) : Bool := matchesKeywords KEYWORDS_EXECUCAO m.descricao

/-- Embeds the deadline-extraction loop (source lines 214-219): iterate the
movements in order, appending `f"{timestamp}: {descricao}"` for every
movement whose lower-cased description contains a deadline keyword. -/
def prazosOf : List Movement → List String
  | [] => []
  | m :: rest =>
    if isPrazo m then (m.dataHora ++ ": " ++ m.descricao) :: prazosOf rest
    else prazosOf rest

/-- The body of the last-decision loop: first matching description in the
traversal order of the argument, empty string when none matches. -/
def resumoLoop : List Movement → String
  | [] => ""
  | m :: rest => if isDecisao m then m.descricao else resumoLoop rest

/-- Embeds the last-decision extraction (source lines 222-227): iterate
`reversed(movimentos)` and keep the description of the first movement whose
lower-cased description contains a decision keyword. -/
def resumoDecisao (movimentos : List Movement) : String :=
  resumoLoop movimentos.reverse

/-- Embeds the execution-phase check (source lines 229-233):
`any(keyword in m.descricao.lower() for m in movimentos for keyword in
KEYWORDS_EXECUCAO)`, the double generator being the nested `any`. -/
def faseExecucao (movimentos : List Movement) : Bool :=
  movimentos.any (fun m => KEYWORDS_EXECUCAO.any (fun k => pyIn k (pyLower m.descricao)))

/-! ## Hits and case records -/

/-- One element of a `_source.partes` list; absent fields are read with
`.get(..., "")`. -/
structure Parte where
  tipoParte : String
  nome : String
deriving DecidableEq

/-- Model of a hit's `_source` dictionary.  Fields read in the source with
`.get(key)` (default `None`) are `Option`s; fields read with a default of
`""` / `[]` are total, an absent field being identified with the default.
`orgaoJulgador_nomeOrgao` flattens `src.get("orgaoJulgador", {}).get("nomeOrgao")`.
`dataDistribuicao` is an `Option` because the record field is read with
`src.get("dataDistribuicao")` while the date filter reads
`src.get("dataDistribuicao", "")`. -/
structure Source where
  numeroProcesso : Option String
  grau : Option String
  classeProcessual : Option String
  assuntosProcessuais : List String
  orgaoJulgador_nomeOrgao : Option String
  situacaoProcessual : Option String
  partes : List Parte
  dataDistribuicao : Option String
  movimentos : List Movement
deriving DecidableEq

/-- The dictionary appended to `resultados` for each retained hit
(source lines 234-251). -/
structure Record where
  cnj : Option String
  tribunal : String
  grau : Option String
  classe : Option String
  assunto : String
  orgao : Option String
  status : Option String
  partes : String
  dt_distribuicao : Option String
  qtd_movimentos : Nat
  prazos_relevantes : String
  resumo_decisao : String
  fase_execucao : String
deriving DecidableEq

/-- Builds the result dictionary for one retained hit
(source lines 234-251). -/
def mkRecord (tribunal : String) (src : Source) : Record where
  cnj := src.numeroProcesso
  tribunal := pyUpper tribunal
  grau := src.grau
  classe := src.classeProcessual
  assunto := String.intercalate ", " src.assuntosProcessuais
  orgao := src.orgaoJulgador_nomeOrgao
  status := src.situacaoProcessual
  partes := String.intercalate "; " (src.partes.map fun p => p.tipoParte ++ ": " ++ p.nome)
  dt_distribuicao := src.dataDistribuicao
  qtd_movimentos := src.movimentos.length
  prazos_relevantes := String.intercalate "\n" (prazosOf src.movimentos)
  resumo_decisao := resumoDecisao src.movimentos
  fase_execucao := if faseExecucao src.movimentos then "Sim" else "Não"

/-- The skip condition of source lines 209-211:
`if desde and dt_dist and dt_dist < desde: continue` — a `date` object is
always truthy, so the hit is skipped exactly when a filter is set, the
distribution date parses and it is strictly earlier than the filter. -/
def skipHit (desde : Option Date) (src : Source) : Bool :=
  match desde, parse_date (src.dataDistribuicao.getD "") with
  | some d, some t => dateLt t d
  | _, _ => false

/-- Per-hit processing of the loop body (source lines 206-251): `none` when
the hit is filtered out by the date window, otherwise the built record. -/
def processHit (tribunal : String) (desde : Option Date) (src : Source) : Option Record :=
  if skipHit desde src then none else some (mkRecord tribunal src)

/-! ## Pagination (`buscar_processos`) -/

/-- `page_size = 100` (source line 181). -/
def pageSize : Nat := 100

/-- The pagination loop of `buscar_processos` (source lines 182-254), with
the transport abstracted as `fetch : page index → Option (List Source)`
(`none` models an exception escaping `session.post`/`raise_for_status`
after retries).  Recursion is on the remaining page budget
(`fuel = max_paginas - pagina`).  The second component counts transport
requests issued.  Branches in order, as in the source: transport failure →
break; `not hits` → break; process every hit; fewer than `page_size` hits →
break; otherwise next page. -/
def buscarAux (fetch : Nat → Option (List Source)) (tribunal : String)
    (desde : Option Date) : Nat → Nat → List Record × Nat
  | _, 0 => ([], 0)
  | pagina, fuel + 1 =>
    match fetch pagina with
    | none => ([], 1)
    | some hits =>
      if hits.isEmpty then ([], 1)
      else
        let recs := hits.filterMap (processHit tribunal desde)
        if hits.length < pageSize then (recs, 1)
        else
          let rest := buscarAux fetch tribunal desde (pagina + 1) fuel
          (recs ++ rest.1, rest.2 + 1)

/-- `buscar_processos` (source lines 149-255): accumulated records of all
pages starting from page 0, paired with the number of transport requests
issued. -/
def buscar_processos (fetch : Nat → Option (List Source)) (tribunal : String)
    (desde : Option Date) (max_paginas : Nat) : List Record × Nat :=
  buscarAux fetch tribunal desde 0 max_paginas

/-! ## Aggregation and deduplication (`main`) -/

/-- `tribunal.lower().strip()` (source line 384). -/
def normTrib (s : String) : String := pyStrip (pyLower s)

/-- The per-tribunal loop of `main` (source lines 382-388): the transport is
abstracted as `fetchOf : normalized tribunal code → page index →
Option (List Source)`; records are concatenated in tribunal-list order and
request counts summed. -/
def coletar (fetchOf : String → Nat → Option (List Source)) (desde : Option Date)
    (maxPaginas : Nat) : List String → List Record × Nat
  | [] => ([], 0)
  | t :: rest =>
    let tt := normTrib t
    let r := buscar_processos (fetchOf tt) tt desde maxPaginas
    let r2 := coletar fetchOf desde maxPaginas rest
    (r.1 ++ r2.1, r.2 + r2.2)

/-- The deduplication key `subset=["cnj", "tribunal"]` of
`df_all.drop_duplicates` (source line 392). -/
def chave (r : Record) : Option String × String := (r.cnj, r.tribunal)

/-- First-occurrence-wins deduplication over the key set already seen,
modelling `DataFrame.drop_duplicates(subset=..., keep="first")`, which is
stable and keeps the first row of each key. -/
def dedupAux : List (Option String × String) → List Record → List Record
  | _, [] => []
  | seen, r :: rest =>
    if chave r ∈ seen then dedupAux seen rest
    else r :: dedupAux (chave r :: seen) rest

/-- `drop_duplicates` on the full record list. -/
def drop_duplicates (l : List Record) : List Record := dedupAux [] l

/-- The deduplication step of `main` (source lines 389-393): applied only
when the collected frame is non-empty (for the empty list both branches
coincide). -/
def mainDedup (l : List Record) : List Record :=
  if l.isEmpty then l else drop_duplicates l

/-! ## CLI arguments and the `main` driver -/

/-- The parsed command-line arguments used by the core of `main`
(source lines 347-360).  `--nome`, `--cnpj` and `--desde` are `None` when
absent; `--since-days` is an integer or `None`; `--max-paginas` defaults
to 25. -/
structure Args where
  nome : Option String
  cnpj : Option String
  tribunais : List String
  maxPaginas : Nat
  desde : Option String
  sinceDays : Option Int
  selftest : Bool
deriving DecidableEq

/-- The fatal configuration failures of `main`: `sys.exit(1)` on a bad
`--desde` (source line 369) and `parser.error` on missing required
arguments (source line 378). -/
inductive ConfigError where
  | badDesde
  | missingArgs
deriving DecidableEq

/-- Python truthiness of an optional string (`if args.desde:`): `None` and
the empty string are falsy. -/
def truthyStr : Option String → Option String
  | some s => if s == "" then none else some s
  | none => none

/-- The date-filter resolution of `main` (source lines 363-371):
a truthy `--desde` is parsed with `date.fromisoformat`, a `ValueError`
being the fatal `badDesde`; otherwise a truthy (non-zero) `--since-days n`
yields `today - timedelta(days=n)`; otherwise no filter. -/
def resolveDesde (a : Args) (today : Date) : Except ConfigError (Option Date) :=
  match truthyStr a.desde with
  | some s =>
    match parseIso s with
    | some d => .ok (some d)
    | none => .error .badDesde
  | none =>
    match a.sinceDays with
    | some n => if n == 0 then .ok none else .ok (some (dateSubDays today n))
    | none => .ok none

/-- `gerar_dados_teste` (source lines 310-343), as `Record`s. -/
def dadosTeste : List Record :=
  [{ cnj := some "0000000-00.2020.8.99.9999", tribunal := "TJXX", grau := some "1",
     classe := some "Procedimento Comum", assunto := "Contrato",
     orgao := some "Vara Única", status := some "Em andamento",
     partes := "AUTOR: Empresa A; RÉU: Empresa B",
     dt_distribuicao := some "2020-01-01", qtd_movimentos := 10,
     prazos_relevantes := "2020-02-01T00:00:00Z: Intimação para manifestação",
     resumo_decisao := "Decisão interlocutória proferida.", fase_execucao := "Não" },
   { cnj := some "1111111-11.2021.8.99.9999", tribunal := "TJYY", grau := some "2",
     classe := some "Execução", assunto := "Cobrança",
     orgao := some "Turma Recursal", status := some "Sentenciado",
     partes := "EXEQUENTE: Fulano; EXECUTADO: Sicrano",
     dt_distribuicao := some "2021-05-10", qtd_movimentos := 8,
     prazos_relevantes := "", resumo_decisao := "Sentença de mérito.",
     fase_execucao := "Sim" }]

/-- The core of `main` (source lines 346-394), up to the hand-off to the
export sinks: resolve the date filter (fatal on a bad `--desde`), then
either return the self-test data unchanged, or validate the required
arguments (`parser.error` exits non-zero before the session is created),
query every tribunal and deduplicate.  The second component of the result
is the total number of transport requests issued; the error cases occur
before any request. -/
def mainRun (a : Args) (today : Date)
    (fetchOf : String → Nat → Option (List Source)) :
    Except ConfigError (List Record × Nat) :=
  match resolveDesde a today with
  | .error e => .error e
  | .ok desde =>
    if a.selftest then .ok (dadosTeste, 0)
    else if truthyStr a.nome = none ∨ truthyStr a.cnpj = none ∨ a.tribunais.isEmpty then
      .error .missingArgs
    else
      let r := coletar fetchOf desde a.maxPaginas a.tribunais
      .ok (mainDedup r.1, r.2)

/-! ## Classifier lemmas and claim theorems -/

theorem resumoLoop_eq_head_filter (l : List Movement) :
    resumoLoop l = (((l.filter isDecisao).head?).map Movement.descricao).getD "" := by
  induction l with
  | nil => rfl
  | cons m rest ih =>
    by_cases h : isDecisao m
    · simp [resumoLoop, h, List.filter_cons]
    · simp [resumoLoop, h, List.filter_cons, ih]

/-- C1: for every movement log, `last_decision_summary` (`resumo_decisao`)
is the description of the chronologically last movement whose lower-cased
description contains a decision keyword — equivalently, the first match
when iterating the log in reverse — and the empty string when no movement
matches. -/
theorem resumoDecisao_is_last_decision (l : List Movement) :
    resumoDecisao l = (((l.filter isDecisao).getLast?).map Movement.descricao).getD "" := by
  rw [resumoDecisao, resumoLoop_eq_head_filter, List.filter_reverse, List.head?_reverse]

/-- C2: for every movement log, the extracted deadline list is exactly the
matching subsequence of the log, each movement rendered as
`"{timestamp}: {description}"`, in the original input order and with
repeated phrasings kept (one output entry per matching movement, no
deduplication). -/
theorem prazos_is_ordered_subsequence (l : List Movement) :
    prazosOf l = (l.filter isPrazo).map (fun m => m.dataHora ++ ": " ++ m.descricao) ∧
    (prazosOf l).length = (l.filter isPrazo).length := by
  refine ⟨?_, ?_⟩
  · induction l with
    | nil => rfl
    | cons m rest ih =>
      by_cases h : isPrazo m
      · simp [prazosOf, h, List.filter_cons, ih]
      · simp [prazosOf, h, List.filter_cons, ih]
  · induction l with
    | nil => rfl
    | cons m rest ih =>
      by_cases h : isPrazo m
      · simp [prazosOf, h, List.filter_cons, ih]
      · simp [prazosOf, h, List.filter_cons, ih]

/-- C3: for every movement log, `in_execution_phase` (`fase_execucao`) is
true iff at least one movement's lower-cased description contains an
execution keyword, regardless of its position in the log. -/
theorem faseExecucao_iff_exists (l : List Movement) :
    faseExecucao l = true ↔ ∃ m, m ∈ l ∧ isExecucao m = true := by
  simp [faseExecucao, isExecucao, matchesKeywords, List.any_eq_true]

/-- C5: under an active `since_date` filter `d`, a hit is dropped iff its
distribution date parses and is strictly earlier than `d`; in particular a
hit whose parsed date equals `d` and a hit whose date is missing or
unparsable are retained (fail-open). -/
theorem date_filter_drops_iff (t : String) (d : Date) (src : Source) :
    processHit t (some d) src = none ↔
      ∃ dt, parse_date (src.dataDistribuicao.getD "") = some dt ∧ dateLt dt d = true := by
  unfold processHit skipHit
  cases hp : parse_date (src.dataDistribuicao.getD "") with
  | none => simp
  | some dt =>
    cases hlt : dateLt dt d with
    | false => simp [hlt]
    | true => simp [hlt]

/-- C9: a hit whose `_source` lacks a movement list is processed as if the
list were empty (the `.get("movimentos", [])` default): record construction
and classification are total and yield movement count 0, empty
`relevant_deadlines`, empty `last_decision_summary` and a false
execution-phase flag (`"Não"`).  Movement entries lacking `descricao` or
`dataHora` are likewise read as empty strings by construction of
`Movement`. -/
theorem empty_movimentos_record (t : String) (src : Source)
    (h : src.movimentos = []) :
    (mkRecord t src).qtd_movimentos = 0 ∧
    (mkRecord t src).prazos_relevantes = "" ∧
    (mkRecord t src).resumo_decisao = "" ∧
    (mkRecord t src).fase_execucao = "Não" ∧
    prazosOf src.movimentos = [] ∧
    faseExecucao src.movimentos = false := by
  simp [mkRecord, h, prazosOf, resumoDecisao, resumoLoop, faseExecucao,
    String.intercalate]

/-- A concrete `_source` with every optional field absent, used as input in
witnesses. -/
def srcVazio : Source :=
  { numeroProcesso := none, grau := none, classeProcessual := none,
    assuntosProcessuais := [], orgaoJulgador_nomeOrgao := none,
    situacaoProcessual := none, partes := [], dataDistribuicao := none,
    movimentos := [] }

/-- Witness for C9 at the concrete empty source. -/
theorem empty_movimentos_record_witness :
    (mkRecord "tjpe" srcVazio).qtd_movimentos = 0 ∧
    (mkRecord "tjpe" srcVazio).prazos_relevantes = "" ∧
    (mkRecord "tjpe" srcVazio).resumo_decisao = "" ∧
    (mkRecord "tjpe" srcVazio).fase_execucao = "Não" ∧
    prazosOf srcVazio.movimentos = [] ∧
    faseExecucao srcVazio.movimentos = false :=
  empty_movimentos_record "tjpe" srcVazio rfl

/-! ## Pagination lemmas -/

/-- The pagination loop never issues more requests than the page budget. -/
theorem buscarAux_count_le (fetch : Nat → Option (List Source)) (t : String)
    (desde : Option Date) :
    ∀ fuel pagina, (buscarAux fetch t desde pagina fuel).2 ≤ fuel := by
  intro fuel
  induction fuel with
  | zero => intro pagina; simp [buscarAux]
  | succ f ih =>
    intro pagina
    simp only [buscarAux]
    cases fetch pagina with
    | none => simp
    | some hits =>
      by_cases he : hits.isEmpty
      · simp [he]
      · by_cases hs : hits.length < pageSize
        · simp [he, hs]
        · simpa [he, hs] using ih (pagina + 1)

/-- When every page of the remaining budget is full, the whole budget is
consumed: one request per page. -/
theorem buscarAux_count_full (fetch : Nat → Option (List Source)) (t : String)
    (desde : Option Date) :
    ∀ fuel pagina,
      (∀ p, p < fuel → ∃ hits, fetch (pagina + p) = some hits ∧ hits.length = pageSize) →
      (buscarAux fetch t desde pagina fuel).2 = fuel := by
  intro fuel
  induction fuel with
  | zero => intro pagina _; simp [buscarAux]
  | succ f ih =>
    intro pagina h
    obtain ⟨hits, hf, hl⟩ := h 0 (Nat.succ_pos f)
    rw [Nat.add_zero] at hf
    have hne : hits.isEmpty = false := by
      cases hits with
      | nil => simp [pageSize] at hl
      | cons a l => rfl
    have hns : ¬ hits.length < pageSize := by omega
    have hrest : (buscarAux fetch t desde (pagina + 1) f).2 = f := by
      refine ih (pagina + 1) (fun p hp => ?_)
      have := h (p + 1) (Nat.succ_lt_succ hp)
      rwa [show pagina + (p + 1) = pagina + 1 + p by omega] at this
    simp [buscarAux, hf, hne, hns, hrest]

/-- When the first `k` pages are full and page `k` terminates the loop
(transport failure, zero hits, or a short page), exactly `k + 1` requests
are issued, provided the budget allows reaching page `k`. -/
theorem buscarAux_count_stop (fetch : Nat → Option (List Source)) (t : String)
    (desde : Option Date) :
    ∀ k pagina fuel,
      (∀ p, p < k → ∃ hits, fetch (pagina + p) = some hits ∧ hits.length = pageSize) →
      k < fuel →
      (fetch (pagina + k) = none ∨
        ∃ hits, fetch (pagina + k) = some hits ∧ hits.length < pageSize) →
      (buscarAux fetch t desde pagina fuel).2 = k + 1 := by
  intro k
  induction k with
  | zero =>
    intro pagina fuel _ hfuel hstop
    rw [Nat.add_zero] at hstop
    cases fuel with
    | zero => omega
    | succ f =>
      rcases hstop with hnone | ⟨hits, hf, hl⟩
      · simp [buscarAux, hnone]
      · by_cases he : hits.isEmpty
        · simp [buscarAux, hf, he]
        · simp [buscarAux, hf, he, hl]
  | succ k ih =>
    intro pagina fuel h hfuel hstop
    cases fuel with
    | zero => omega
    | succ f =>
      obtain ⟨hits, hf, hl⟩ := h 0 (Nat.succ_pos k)
      rw [Nat.add_zero] at hf
      have hne : hits.isEmpty = false := by
        cases hits with
        | nil => simp [pageSize] at hl
        | cons a l => rfl
      have hns : ¬ hits.length < pageSize := by omega
      have hrest : (buscarAux fetch t desde (pagina + 1) f).2 = k + 1 := by
        refine ih (pagina + 1) f (fun p hp => ?_) (by omega) ?_
        · have := h (p + 1) (Nat.succ_lt_succ hp)
          rwa [show pagina + (p + 1) = pagina + 1 + p by omega] at this
        · rwa [show pagina + 1 + k = pagina + (k + 1) by omega]
      simp [buscarAux, hf, hne, hns, hrest]

/-- When the first `k` pages are full and the transport fails on page `k`,
the records returned under any sufficient budget are exactly those a run
capped at `k` pages would return: the accumulation of pages before `k`. -/
theorem buscarAux_records_stop (fetch : Nat → Option (List Source)) (t : String)
    (desde : Option Date) :
    ∀ k pagina fuel,
      (∀ p, p < k → ∃ hits, fetch (pagina + p) = some hits ∧ hits.length = pageSize) →
      k < fuel →
      fetch (pagina + k) = none →
      (buscarAux fetch t desde pagina fuel).1 = (buscarAux fetch t desde pagina k).1 := by
  intro k
  induction k with
  | zero =>
    intro pagina fuel _ hfuel hnone
    rw [Nat.add_zero] at hnone
    cases fuel with
    | zero => omega
    | succ f => simp [buscarAux, hnone]
  | succ k ih =>
    intro pagina fuel h hfuel hnone
    cases fuel with
    | zero => omega
    | succ f =>
      obtain ⟨hits, hf, hl⟩ := h 0 (Nat.succ_pos k)
      rw [Nat.add_zero] at hf
      have hne : hits.isEmpty = false := by
        cases hits with
        | nil => simp [pageSize] at hl
        | cons a l => rfl
      have hns : ¬ hits.length < pageSize := by omega
      have hshift : ∀ p, p < k → ∃ hits2,
          fetch (pagina + 1 + p) = some hits2 ∧ hits2.length = pageSize := by
        intro p hp
        have := h (p + 1) (Nat.succ_lt_succ hp)
        rwa [show pagina + (p + 1) = pagina + 1 + p by omega] at this
      have hrest : (buscarAux fetch t desde (pagina + 1) f).1 =
          (buscarAux fetch t desde (pagina + 1) k).1 := by
        refine ih (pagina + 1) f hshift (by omega) ?_
        rwa [show pagina + 1 + k = pagina + (k + 1) by omega]
      simp [buscarAux, hf, hne, hns, hrest]

/-- C4: pagination issues at most `max_pages` requests; when every page of
the budget is full (exactly 100 hits) exactly `max_pages` requests are
issued and never one more; and when the first `k` pages are full and page
`k < max_pages` is the first terminal page (zero hits or a short successful
page), exactly `k + 1` requests are issued. -/
theorem buscar_pagination_termination (fetch : Nat → Option (List Source))
    (t : String) (desde : Option Date) (N : Nat) :
    (buscar_processos fetch t desde N).2 ≤ N ∧
    ((∀ p, p < N → ∃ hits, fetch p = some hits ∧ hits.length = pageSize) →
      (buscar_processos fetch t desde N).2 = N) ∧
    (∀ k, k < N →
      (∀ p, p < k → ∃ hits, fetch p = some hits ∧ hits.length = pageSize) →
      (fetch k = some [] ∨ ∃ hits, fetch k = some hits ∧ hits.length < pageSize) →
      (buscar_processos fetch t desde N).2 = k + 1) := by
  refine ⟨buscarAux_count_le fetch t desde N 0, ?_, ?_⟩
  · intro h
    refine buscarAux_count_full fetch t desde N 0 (fun p hp => ?_)
    simpa using h p hp
  · intro k hk h hstop
    refine buscarAux_count_stop fetch t desde k 0 N (fun p hp => by simpa using h p hp) hk ?_
    rcases hstop with he | ⟨hits, hf, hl⟩
    · exact Or.inr ⟨[], by simpa using he, by simp [pageSize]⟩
    · exact Or.inr ⟨hits, by simpa using hf, hl⟩

/-- A transport stub returning a full page of 100 empty hits for every
page, used in witnesses. -/
def fetchCheio : Nat → Option (List Source) := fun _ => some (List.replicate 100 srcVazio)

/-- Witness for C4: with a transport returning only full pages and a
budget of one page, exactly one request is issued. -/
theorem buscar_pagination_termination_witness :
    (buscar_processos fetchCheio "tjpe" none 1).2 = 1 :=
  (buscar_pagination_termination fetchCheio "tjpe" none 1).2.1
    (fun _ _ => ⟨List.replicate 100 srcVazio, rfl, rfl⟩)

/-- C6: when the first `k` pages of a tribunal are full and the transport
fails on page `k < max_pages`, the query returns exactly the records
accumulated from the pages before `k` (a run capped at `k` pages); and in
the aggregator a tribunal whose transport fails on its very first page
contributes zero records while the remaining tribunals are still
processed. -/
theorem transport_failure_isolation (fetch : Nat → Option (List Source))
    (t : String) (desde : Option Date) (N k : Nat)
    (h : ∀ p, p < k → ∃ hits, fetch p = some hits ∧ hits.length = pageSize)
    (hfail : fetch k = none) (hk : k < N) :
    (buscar_processos fetch t desde N).1 = (buscar_processos fetch t desde k).1 ∧
    (∀ (fetchOf : String → Nat → Option (List Source)) (t2 : String)
        (rest : List String) (desde2 : Option Date) (N2 : Nat),
      fetchOf (normTrib t2) 0 = none →
      (coletar fetchOf desde2 N2 (t2 :: rest)).1 = (coletar fetchOf desde2 N2 rest).1) := by
  constructor
  · exact buscarAux_records_stop fetch t desde k 0 N
      (fun p hp => by simpa using h p hp) hk (by simpa using hfail)
  · intro fetchOf t2 rest desde2 N2 hnone
    have hzero : (buscar_processos (fetchOf (normTrib t2)) (normTrib t2) desde2 N2).1 = [] := by
      cases N2 with
      | zero => rfl
      | succ n => simp [buscar_processos, buscarAux, hnone]
    simp [coletar, hzero]

/-- A transport stub that succeeds with a full page on page 0 and fails on
every later page, used in the C6 witness. -/
def fetchFalha1 : Nat → Option (List Source) :=
  fun p => if p == 0 then some (List.replicate 100 srcVazio) else none

/-- Witness for C6: with a full page 0 and a failure on page 1, a
three-page budget returns the page-0 records, and a head tribunal whose
transport fails immediately contributes nothing to the aggregate. -/
theorem transport_failure_isolation_witness :
    (buscar_processos fetchFalha1 "tjpe" none 3).1 =
      (buscar_processos fetchFalha1 "tjpe" none 1).1 ∧
    (coletar (fun _ _ => none) none 2 ["tjx", "tjy"]).1 =
      (coletar (fun _ _ => none) none 2 ["tjy"]).1 := by
  have h := transport_failure_isolation fetchFalha1 "tjpe" none 3 1
    (fun p hp => by
      have hp0 : p = 0 := Nat.lt_one_iff.mp hp
      subst hp0
      exact ⟨List.replicate 100 srcVazio, rfl, rfl⟩)
    rfl (by omega)
  exact ⟨h.1, h.2 (fun _ _ => none) "tjx" ["tjy"] none 2 rfl⟩

/-! ## Deduplication lemmas -/

/-- Deduplication only removes elements: the output is a subsequence of the
input, so the surviving records keep their relative order. -/
theorem dedupAux_sublist : ∀ (l : List Record) (seen : List (Option String × String)),
    (dedupAux seen l).Sublist l := by
  intro l
  induction l with
  | nil => intro seen; simp [dedupAux]
  | cons r rest ih =>
    intro seen
    by_cases h : chave r ∈ seen
    · simpa [dedupAux, h] using (ih seen).cons r
    · simpa [dedupAux, h] using (ih (chave r :: seen)).cons₂ r

/-- Every element of the deduplicated list comes from the input and its key
was not among the keys already seen. -/
theorem dedupAux_mem : ∀ (l : List Record) (seen : List (Option String × String))
    (r : Record), r ∈ dedupAux seen l → chave r ∉ seen ∧ r ∈ l := by
  intro l
  induction l with
  | nil => intro seen r h; simp [dedupAux] at h
  | cons a rest ih =>
    intro seen r h
    by_cases ha : chave a ∈ seen
    · rw [dedupAux, if_pos ha] at h
      obtain ⟨h1, h2⟩ := ih seen r h
      exact ⟨h1, List.mem_cons_of_mem a h2⟩
    · rw [dedupAux, if_neg ha] at h
      rcases List.mem_cons.mp h with rfl | h2
      · exact ⟨ha, List.mem_cons_self r rest⟩
      · obtain ⟨h1, h3⟩ := ih (chave a :: seen) r h2
        exact ⟨fun hc => h1 (List.mem_cons_of_mem _ hc), List.mem_cons_of_mem a h3⟩

/-- The deduplicated list holds at most one record per key. -/
theorem dedupAux_pairwise : ∀ (l : List Record) (seen : List (Option String × String)),
    (dedupAux seen l).Pairwise (fun a b => chave a ≠ chave b) := by
  intro l
  induction l with
  | nil => intro seen; simp [dedupAux]
  | cons a rest ih =>
    intro seen
    by_cases ha : chave a ∈ seen
    · rw [dedupAux, if_pos ha]; exact ih seen
    · rw [dedupAux, if_neg ha]
      refine List.Pairwise.cons (fun b hb => ?_) (ih (chave a :: seen))
      have := (dedupAux_mem rest (chave a :: seen) b hb).1
      intro hc
      exact this (by rw [← hc]; exact List.mem_cons_self _ _)

/-- Each survivor is the first record of the input carrying its key. -/
theorem dedupAux_first : ∀ (l : List Record) (seen : List (Option String × String))
    (r : Record), r ∈ dedupAux seen l →
    l.find? (fun x => chave x == chave r) = some r := by
  intro l
  induction l with
  | nil => intro seen r h; simp [dedupAux] at h
  | cons a rest ih =>
    intro seen r h
    by_cases ha : chave a ∈ seen
    · rw [dedupAux, if_pos ha] at h
      have hne : chave r ≠ chave a := by
        intro hc
        exact (dedupAux_mem rest seen r h).1 (hc ▸ ha)
      rw [List.find?_cons_of_neg _ (by simpa using fun hc => hne hc.symm)]
      exact ih seen r h
    · rw [dedupAux, if_neg ha] at h
      rcases List.mem_cons.mp h with rfl | h2
      · exact List.find?_cons_of_pos _ (by simp)
      · have hmem := (dedupAux_mem rest (chave a :: seen) r h2).1
        have hne : chave r ≠ chave a := by
          intro hc
          exact hmem (by rw [hc]; exact List.mem_cons_self _ _)
        rw [List.find?_cons_of_neg _ (by simpa using fun hc => hne hc.symm)]
        exact ih (chave a :: seen) r h2

/-- Every key of the input whose key is not already seen is represented in
the deduplicated output. -/
theorem dedupAux_covers : ∀ (l : List Record) (seen : List (Option String × String))
    (r : Record), r ∈ l → chave r ∉ seen →
    ∃ r2, r2 ∈ dedupAux seen l ∧ chave r2 = chave r := by
  intro l
  induction l with
  | nil => intro seen r h _; simp at h
  | cons a rest ih =>
    intro seen r h hseen
    by_cases ha : chave a ∈ seen
    · rw [dedupAux, if_pos ha]
      rcases List.mem_cons.mp h with rfl | h2
      · exact absurd ha hseen
      · exact ih seen r h2 hseen
    · rw [dedupAux, if_neg ha]
      by_cases hc : chave r = chave a
      · exact ⟨a, List.mem_cons_self _ _, hc.symm⟩
      · rcases List.mem_cons.mp h with rfl | h2
        · exact absurd rfl hc
        · obtain ⟨r2, hr2, hk⟩ := ih (chave a :: seen) r h2
            (by simp [hc, hseen])
          exact ⟨r2, List.mem_cons_of_mem a hr2, hk⟩

/-- C7: the deduplication step of `main` keeps at most one record per
`(cnj, tribunal)` key (pairwise distinct keys), every key of the input is
still represented, each survivor is the first occurrence of its key in
concatenation order, and the survivors form a subsequence of the input
(stable: relative order preserved). -/
theorem mainDedup_spec (l : List Record) :
    (mainDedup l).Sublist l ∧
    (mainDedup l).Pairwise (fun a b => chave a ≠ chave b) ∧
    (∀ r, r ∈ mainDedup l → l.find? (fun x => chave x == chave r) = some r) ∧
    (∀ r, r ∈ l → ∃ r2, r2 ∈ mainDedup l ∧ chave r2 = chave r) := by
  by_cases h : l.isEmpty
  · rw [List.isEmpty_iff] at h
    subst h
    simp [mainDedup]
  · rw [mainDedup, if_neg (by simp [h]), drop_duplicates]
    exact ⟨dedupAux_sublist l [], dedupAux_pairwise l [],
      fun r hr => dedupAux_first l [] r hr,
      fun r hr => dedupAux_covers l [] r hr (by simp)⟩

/-- Two concrete records sharing the `(cnj, tribunal)` key but differing in
content, for the C7 witness. -/
def recClone1 : Record :=
  { cnj := some "123", tribunal := "TJPE", grau := none, classe := none,
    assunto := "", orgao := none, status := none, partes := "",
    dt_distribuicao := none, qtd_movimentos := 0, prazos_relevantes := "",
    resumo_decisao := "", fase_execucao := "Não" }

/-- Duplicate-keyed variant of `recClone1`. -/
def recClone2 : Record :=
  { recClone1 with resumo_decisao := "Sentença." }

/-- Witness for C7: in a two-record list whose entries share a key, the
survivor (a member of the deduplicated output) is the first occurrence. -/
theorem mainDedup_spec_witness :
    List.find? (fun x => chave x == chave recClone1) [recClone1, recClone2] =
      some recClone1 :=
  (mainDedup_spec [recClone1, recClone2]).2.2.1 recClone1 (by decide)

/-! ## CLI date-filter claim theorems -/

/-- C8 (amended): for every CLI invocation whose `--desde` argument is
non-empty and not a valid `YYYY-MM-DD` date, `main` reports the
configuration error and exits non-zero before any network activity: the
outcome is `badDesde` for every transport, so no session is used and no
request is issued.  (An empty `--desde` string is falsy in Python and is
treated as if the flag were absent, hence the non-emptiness hypothesis.) -/
theorem mainRun_invalid_desde (a : Args) (today : Date)
    (fetchOf : String → Nat → Option (List Source)) (s : String)
    (h1 : a.desde = some s) (h2 : s ≠ "") (h3 : parseIso s = none) :
    mainRun a today fetchOf = .error .badDesde := by
  have ht : truthyStr a.desde = some s := by
    rw [h1, truthyStr]
    simp [h2]
  rw [mainRun, resolveDesde, ht]
  simp [h3]

/-- Concrete arguments with an invalid (non-empty) `--desde`. -/
def argsDesdeRuim : Args :=
  { nome := some "LOCAR SANEAMENTO AMBIENTAL LTDA", cnpj := some "35474949000108",
    tribunais := ["tjpe"], maxPaginas := 25, desde := some "2024-13-01",
    sinceDays := none, selftest := false }

/-- Witness for C8 (amended): `--desde 2024-13-01` is fatal before any
request, for a transport that would otherwise answer. -/
theorem mainRun_invalid_desde_witness :
    mainRun argsDesdeRuim ⟨2025, 1, 1⟩ (fun _ _ => some []) = .error .badDesde :=
  mainRun_invalid_desde argsDesdeRuim ⟨2025, 1, 1⟩ (fun _ _ => some [])
    "2024-13-01" rfl (by decide) (by decide)

/-- Concrete arguments passing the empty string to `--desde`. -/
def argsDesdeVazio : Args :=
  { nome := some "LOCAR SANEAMENTO AMBIENTAL LTDA", cnpj := some "35474949000108",
    tribunais := ["tjpe"], maxPaginas := 1, desde := some "",
    sinceDays := none, selftest := false }

/-- Counterexample to C8 as stated: `--desde ""` is not a valid
`YYYY-MM-DD` date (`fromisoformat` would reject it), yet `main` reports no
configuration error — it proceeds, issues a transport request (count 1)
and terminates normally, because `if args.desde:` treats the empty string
as an absent flag. -/
theorem mainRun_empty_desde_counterexample :
    mainRun argsDesdeVazio ⟨2025, 1, 1⟩ (fun _ _ => none) = .ok ([], 1) ∧
    parseIso "" = none := by
  constructor
  · rfl
  · rfl

/-- C10: with no `--desde`, `--since-days 0` installs no date filter at all
(the zero is falsy in `elif args.since_days:`), so every hit is retained
regardless of its distribution date; whereas `--since-days n` for `n ≥ 1`
installs the filter `today - timedelta(days=n)`. -/
theorem since_days_zero_no_filter (today : Date) (n : Int) (hn : 1 ≤ n)
    (a0 a1 : Args) (h0d : a0.desde = none) (h0s : a0.sinceDays = some 0)
    (h1d : a1.desde = none) (h1s : a1.sinceDays = some n) :
    resolveDesde a0 today = .ok none ∧
    (∀ t src, processHit t none src = some (mkRecord t src)) ∧
    resolveDesde a1 today = .ok (some (dateSubDays today n)) := by
  refine ⟨?_, ?_, ?_⟩
  · rw [resolveDesde, h0d, h0s]; rfl
  · intro t src
    rfl
  · rw [resolveDesde, h1d, h1s]
    have hz : (n == 0) = false := by
      simp only [beq_eq_false_iff_ne, ne_eq]
      omega
    simp [truthyStr, hz]

/-- Concrete arguments with `--since-days 0`. -/
def argsDias0 : Args :=
  { nome := some "A", cnpj := some "1", tribunais := ["tjpe"], maxPaginas := 25,
    desde := none, sinceDays := some 0, selftest := false }

/-- Concrete arguments with `--since-days 3`. -/
def argsDias3 : Args :=
  { nome := some "A", cnpj := some "1", tribunais := ["tjpe"], maxPaginas := 25,
    desde := none, sinceDays := some 3, selftest := false }

/-- Witness for C10 at `--since-days 0` and `--since-days 3` from
2024-03-01: no filter for zero, and the leap-day-correct threshold
2024-02-27 for three. -/
theorem since_days_zero_no_filter_witness :
    resolveDesde argsDias0 ⟨2024, 3, 1⟩ = .ok none ∧
    processHit "tjpe" none srcVazio = some (mkRecord "tjpe" srcVazio) ∧
    resolveDesde argsDias3 ⟨2024, 3, 1⟩ = .ok (some ⟨2024, 2, 27⟩) := by
  have h := since_days_zero_no_filter ⟨2024, 3, 1⟩ 3 (by omega) argsDias0 argsDias3
    rfl rfl rfl rfl
  refine ⟨h.1, h.2.1 "tjpe" srcVazio, ?_⟩
  have h3 := h.2.2
  rwa [show dateSubDays ⟨2024, 3, 1⟩ 3 = ⟨2024, 2, 27⟩ from rfl] at h3

end DatajudLocar
